import Mathlib

/-!
Verification of the pitch-tracking benchmark repository
(Benchmark-PitchTracking-in-Non-ideal-Conditions).

The repository's I/O-facing scripts are embedded shallowly: file-system
state becomes explicit environment records, printed console output becomes
lists of events or lines, and pandas/numpy operations become list
operations over ℚ, with `Option ℚ` standing for a float column whose
`none` models the floating-point NaN sentinel.  The pitch-evaluation
engine itself (module `src.evaluation`, class `PitchEvaluator`) is not
present in the repository sources; the definitions in namespace `Engine`
are therefore modelled from the specification (§4.1-§4.4) and are marked
as such in their doc comments.
-/

namespace ViewResults

/-! Embedding of scripts/view_results.py. -/

/-- The unit list iterated by format_size (view_results.py line 15). -/
def sizeUnits : List String := ["B", "KB", "MB", "GB", "TB"]

/-- Render a rational with two digits after the decimal point, modelling
Python's f-string directive .2f.  (The float rounding of CPython is
modelled over ℚ by rounding half away from the representative chosen by
Mathlib's round; the claims under verification only exercise exact
values.) -/
def formatTwo (q : ℚ) : String :=
  let n : ℤ := round (q * 100)
  let sgn : String := if n < 0 then "-" else ""
  let m : ℕ := n.natAbs
  let frac : ℕ := m % 100
  let fracStr : String := if frac < 10 then "0" ++ toString frac else toString frac
  sgn ++ toString (m / 100) ++ "." ++ fracStr

/-- The loop body of format_size (view_results.py lines 15-18): walk the
unit list, returning the current value and unit as soon as the value is
below 1024, otherwise divide by 1024 and move to the next unit.  Falling
off the end of the list corresponds to the final return of the Python
function (line 19), which reports the five-times-divided value in PB. -/
def format_size_go : List String → ℚ → ℚ × String
  | [], s => (s, "PB")
  | u :: us, s => if s < 1024 then (s, u) else format_size_go us (s / 1024)

/-- format_size (view_results.py lines 13-19). -/
def format_size (size_bytes : ℚ) : String :=
  let p := format_size_go sizeUnits size_bytes
  formatTwo p.1 ++ " " ++ p.2

/-- One directory entry as seen by Path.iterdir. -/
structure FsEntry where
  name : String
  isDir : Bool
deriving DecidableEq

/-- A (possibly infinitely deep) file system: each directory path is
mapped to its list of entries. -/
structure Fs where
  entries : String → List FsEntry

/-- The sort key of view_results.py line 45: directories before files
(is_file sorts False < True), then by name. -/
def entryBefore (a b : FsEntry) : Bool :=
  if a.isDir = b.isDir then decide (a.name ≤ b.name) else a.isDir

/-- Insertion step of the sort applied to iterdir output. -/
def insertEntry (e : FsEntry) : List FsEntry → List FsEntry
  | [] => [e]
  | x :: xs => if entryBefore e x then e :: x :: xs else x :: insertEntry e xs

/-- sorted(directory.iterdir(), key=lambda x: (x.is_file(), x.name))
(view_results.py line 45), realised as an insertion sort. -/
def sortEntries : List FsEntry → List FsEntry
  | [] => []
  | x :: xs => insertEntry x (sortEntries xs)

/-- Recursive body of print_tree (view_results.py lines 44-53), with the
remaining permitted depth max_depth - current_depth made explicit as the
recursion argument: the Python guard current_depth >= max_depth at line 41
is exactly the zero case, and the recursive call at line 53 passes
current_depth + 1, i.e. one unit less of remaining depth. -/
def print_tree_go (fs : Fs) : ℕ → String → String → List String
  | 0, _, _ => []
  | fuel + 1, directory, pre =>
    let es := sortEntries (fs.entries directory)
    es.enum.flatMap fun ie =>
      let isLast : Bool := ie.1 = es.length - 1
      let currentPre := if isLast then "└── " else "├── "
      let line := pre ++ currentPre ++ ie.2.name
      if ie.2.isDir then
        line :: print_tree_go fs fuel (directory ++ "/" ++ ie.2.name)
          (pre ++ (if isLast then "    " else "│   "))
      else [line]

/-- print_tree (view_results.py lines 39-55), returning the printed lines.
The guard at line 41 returns immediately once current_depth reaches
max_depth; every recursive call (line 53) increases current_depth by one,
so the remaining depth max_depth - current_depth strictly decreases and
the function is total even over an `Fs` describing an infinitely deep
directory tree. -/
def print_tree (fs : Fs) (directory pre : String) (max_depth current_depth : ℕ) :
    List String :=
  if current_depth ≥ max_depth then []
  else print_tree_go fs (max_depth - current_depth) directory pre

/-- A file system in which every directory holds one subdirectory: an
infinitely deep tree, on which print_tree still terminates. -/
def deepFs : Fs := ⟨fun _ => [⟨"d", true⟩]⟩

end ViewResults

namespace CheckDataset

/-! Embedding of scripts/check_dataset.py. -/

/-- The file-system facts consulted by check_dataset.py: for a path,
whether it exists and is a directory (check_directory, line 12). -/
structure CheckEnv where
  existsDir : String → Bool

/-- The required directories, in the order main checks them
(check_dataset.py lines 31-32 and 52-59). -/
def requiredDirs : List String :=
  ["MedleyDB-Pitch/audio",
   "MedleyDB-Pitch/pitch",
   "MedleyDB-Pitch-Experiments/distortion/audio",
   "MedleyDB-Pitch-Experiments/noise/5db/audio",
   "MedleyDB-Pitch-Experiments/noise/15db/audio",
   "MedleyDB-Pitch-Experiments/pitch_shift/25cents/audio",
   "MedleyDB-Pitch-Experiments/pitch_shift/50cents/audio",
   "MedleyDB-Pitch-Experiments/pitch"]

/-- The per-directory status lines main prints: one line per required
directory, marked found or missing; main never returns early, so every
directory is reported (check_dataset.py lines 34-74). -/
def statusReport (env : CheckEnv) : List (String × Bool) :=
  requiredDirs.map fun d => (d, env.existsDir d)

/-- The all_ok accumulator: initialised True (line 25) and conjoined with
each directory check in program order (lines 38, 44, 74). -/
def all_ok (env : CheckEnv) : Bool :=
  requiredDirs.foldl (fun acc d => acc && env.existsDir d) true

/-- The process exit status: sys.exit(1) when some directory was missing
(line 88), normal termination (exit status 0) otherwise. -/
def exitCode (env : CheckEnv) : ℕ :=
  if all_ok env then 0 else 1

end CheckDataset

namespace Driver

/-! Embedding of evaluate/evaluate_basic_pitch.py, the batch driver. -/

/-- The evaluator object, carrying its single configuration value
(evaluate_basic_pitch.py line 25 constructs PitchEvaluator with
pitch_tolerance=50.0). -/
structure PitchEvaluator where
  pitch_tolerance : ℚ

/-- The one evaluator main constructs, before the loop over conditions
(evaluate_basic_pitch.py line 25). -/
def evaluator : PitchEvaluator := ⟨50⟩

/-- One entry of the experiments dictionary (lines 28-59). -/
structure ExpConfig where
  name : String
  prediction_dir : String
  ground_truth_dir : String
  output_path : String
deriving DecidableEq

/-- The experiments dictionary in its insertion order, which is the
iteration order of the loop at line 68 (evaluate_basic_pitch.py
lines 28-59). -/
def experiments : List ExpConfig :=
  [⟨"clean", "results/predictions/basic_pitch_normalized/clean",
    "MedleyDB-Pitch/pitch", "results/metrics/basic_pitch_clean.csv"⟩,
   ⟨"distortion", "results/predictions/basic_pitch_normalized/distortion",
    "MedleyDB-Pitch-Experiments/pitch", "results/metrics/basic_pitch_distortion.csv"⟩,
   ⟨"noise_5db", "results/predictions/basic_pitch_normalized/noise/5db",
    "MedleyDB-Pitch-Experiments/pitch", "results/metrics/basic_pitch_noise_5db.csv"⟩,
   ⟨"noise_15db", "results/predictions/basic_pitch_normalized/noise/15db",
    "MedleyDB-Pitch-Experiments/pitch", "results/metrics/basic_pitch_noise_15db.csv"⟩,
   ⟨"pitch_shift_25cents", "results/predictions/basic_pitch_normalized/pitch_shift/25cents",
    "MedleyDB-Pitch-Experiments/pitch", "results/metrics/basic_pitch_pitch_shift_25cents.csv"⟩,
   ⟨"pitch_shift_50cents", "results/predictions/basic_pitch_normalized/pitch_shift/50cents",
    "MedleyDB-Pitch-Experiments/pitch", "results/metrics/basic_pitch_pitch_shift_50cents.csv"⟩]

/-- The external facts the driver consults while looping: whether a
directory exists (line 72), how many *.csv files glob finds in it
(line 77), and whether evaluator.evaluate returns normally or raises
(lines 88-97); a raised exception is an `Except.error` carrying the
message that line 95 prints. -/
structure DriverEnv where
  dirExists : String → Bool
  csvFileCount : String → ℕ
  evalOutcome : String → String → String → Except String Unit

/-- What the driver reports for one condition. -/
inductive Event where
  | skippedMissingDir (name : String)
  | skippedNoFiles (name : String)
  | evaluated (name : String) (tolerance : ℚ)
  | errorReported (name : String) (msg : String)
deriving DecidableEq

/-- The condition an event belongs to. -/
def Event.condName : Event → String
  | .skippedMissingDir n => n
  | .skippedNoFiles n => n
  | .evaluated n _ => n
  | .errorReported n _ => n

/-- Whether the event corresponds to a call of evaluator.evaluate
(line 89): true for a normal or an exceptional evaluation, false for the
two skip branches, which `continue` before the engine is reached. -/
def Event.invokedEngine : Event → Bool
  | .evaluated _ _ => true
  | .errorReported _ _ => true
  | _ => false

/-- One iteration of the loop at evaluate_basic_pitch.py lines 68-97:
skip when the prediction directory is missing (lines 72-75), skip when it
holds no CSV files (lines 77-81), otherwise call evaluator.evaluate inside
try/except (lines 88-97), where a raised exception is caught, its message
printed, and the loop proceeds. -/
def runCondition (env : DriverEnv) (ev : PitchEvaluator) (cfg : ExpConfig) : Event :=
  if env.dirExists cfg.prediction_dir = false then .skippedMissingDir cfg.name
  else if env.csvFileCount cfg.prediction_dir = 0 then .skippedNoFiles cfg.name
  else
    match env.evalOutcome cfg.prediction_dir cfg.ground_truth_dir cfg.output_path with
    | .ok _ => .evaluated cfg.name ev.pitch_tolerance
    | .error e => .errorReported cfg.name e

/-- The whole run of main: every condition of the experiments dictionary
is processed in order with the single evaluator, yielding one event
each. -/
def mainEvents (env : DriverEnv) : List Event :=
  experiments.map (runCondition env evaluator)

end Driver

namespace Plot

/-! Embedding of evaluate/plot_results.py and
evaluate/plot_additional_comparisons.py.  A pandas DataFrame of per-file
metric rows becomes a list of `Row`; a float metric cell becomes
`Option ℚ`, with `none` modelling the NaN sentinel for an undefined
metric. -/

/-- One row of a per-condition metrics CSV (columns filename, OA, RPA,
RCA, VR). -/
structure Row where
  filename : String
  oa : Option ℚ
  rpa : Option ℚ
  rca : Option ℚ
  vr : Option ℚ
deriving DecidableEq

/-- df[df['filename'] != 'AVERAGE'] (plot_results.py lines 107 and 129;
plot_additional_comparisons.py lines 86, 96, 109, 123). -/
def dropAverage (df : List Row) : List Row :=
  df.filter fun r => r.filename != "AVERAGE"

/-- filename.replace('.csv', '').replace('.wav', '') (plot_results.py
line 109). -/
def trackId (fn : String) : String :=
  (fn.replace ".csv" "").replace ".wav" ""

/-- One row of the distortion manifest used by plot_results.load_results
(columns track_id and level_tag). -/
structure DistRow where
  track_id : String
  level_tag : String
deriving DecidableEq

/-- df.merge(manifest[['track_id','level_tag']], on='track_id',
how='left') (plot_results.py line 111): each result row is paired with
the level_tag of every manifest row sharing its track_id, or with `none`
when the manifest has no such row. -/
def mergeLevelTag (df : List Row) (mf : List DistRow) : List (Row × Option String) :=
  df.flatMap fun r =>
    match mf.filter (fun m => m.track_id == trackId r.filename) with
    | [] => [(r, none)]
    | ms => ms.map fun m => (r, some m.level_tag)

/-- The CSV tables and manifest the results plotter can read: a path maps
to `some` table when the file exists (plot_results.py lines 92-94,
105, 126). -/
structure PlotEnv where
  readCsv : String → Option (List Row)
  dist_manifest : Option (List DistRow)

/-- self.results_dir (plot_results.py line 36). -/
def results_dir : String := "results/metrics"

/-- The df_level frame of load_results (plot_results.py lines 107-113):
drop the AVERAGE row, merge the level tags, and keep the rows of the
requested level. -/
def distLevelRows (df0 : List Row) (mf : List DistRow) (level : String) :
    List (Row × Option String) :=
  (mergeLevelTag (dropAverage df0) mf).filter fun rm => rm.2 == some level

/-- The distortion branch of load_results (plot_results.py lines 99-121):
read the model's distortion CSV, build df_level, drop the helper columns,
and yield None when the file or the manifest is absent or no row has the
level. -/
def load_distortion (env : PlotEnv) (model level : String) : Option (List Row) :=
  match env.readCsv (results_dir ++ "/" ++ model ++ "_distortion.csv"), env.dist_manifest with
  | some df0, some mf =>
    if 0 < (distLevelRows df0 mf level).length
    then some ((distLevelRows df0 mf level).map Prod.fst) else none
  | _, _ => none

/-- The ordinary branch of load_results (plot_results.py lines 123-133):
read the model_condition CSV and drop the AVERAGE row, or yield None when
the file is absent. -/
def load_plain (env : PlotEnv) (model condition : String) : Option (List Row) :=
  match env.readCsv (results_dir ++ "/" ++ model ++ "_" ++ condition ++ ".csv") with
  | some df => some (dropAverage df)
  | none => none

/-- The per-(model, condition) cell of the dictionary built by
load_results (plot_results.py lines 96-133): distortion_* conditions take
the manifest branch with the level split off the condition name
(line 101), all others the plain branch. -/
def load_condition (env : PlotEnv) (model condition : String) : Option (List Row) :=
  if condition.startsWith "distortion_" then
    load_distortion env model (((condition.splitOn "_").getD 1 ""))
  else load_plain env model condition

/-- A result row annotated with its condition and the tag columns a
manifest merge added (plot_additional_comparisons.py lines 82-129). -/
structure TaggedRow where
  row : Row
  condition : String
  tags : List (String × String)
deriving DecidableEq

/-- One row of a manifest as used by the additional plotter: a track_id
and the tag columns taken from it (level_tag/class_tag/noise_tag). -/
structure ManifestRow where
  track_id : String
  tags : List (String × String)
deriving DecidableEq

/-- df.merge(manifest[...], on='track_id', how='left')
(plot_additional_comparisons.py lines 100, 114, 127). -/
def mergeManifest (rows : List TaggedRow) (mf : List ManifestRow) : List TaggedRow :=
  rows.flatMap fun tr =>
    match mf.filter (fun m => m.track_id == trackId tr.row.filename) with
    | [] => [tr]
    | ms => ms.map fun m => { tr with tags := tr.tags ++ m.tags }

/-- Annotate loaded rows with their condition
(plot_additional_comparisons.py lines 89, 98, 111, 125). -/
def toTagged (condition : String) (df : List Row) : List TaggedRow :=
  df.map fun r => ⟨r, condition, []⟩

/-- The CSV tables and the three manifests the additional plotter can
read (plot_additional_comparisons.py lines 49-68 and 79-129). -/
structure AddEnv where
  readCsv : String → Option (List Row)
  manifest_dist : Option (List ManifestRow)
  manifest_noise : Option (List ManifestRow)
  manifest_tuning : Option (List ManifestRow)

/-- The clean part of load_results_with_metadata
(plot_additional_comparisons.py lines 83-90): appended to model_results
only when the file exists. -/
def cleanPart (env : AddEnv) (model : String) : List (List TaggedRow) :=
  match env.readCsv (results_dir ++ "/" ++ model ++ "_clean.csv") with
  | some df => [toTagged "clean" (dropAverage df)]
  | none => []

/-- The distortion part of load_results_with_metadata (lines 93-102). -/
def distPart (env : AddEnv) (model : String) : List (List TaggedRow) :=
  match env.readCsv (results_dir ++ "/" ++ model ++ "_distortion.csv"), env.manifest_dist with
  | some df, some mf => [mergeManifest (toTagged "distortion" (dropAverage df)) mf]
  | _, _ => []

/-- The per-SNR noise part of load_results_with_metadata
(lines 105-116). -/
def noisePart (env : AddEnv) (model snr : String) : List (List TaggedRow) :=
  match env.readCsv (results_dir ++ "/" ++ model ++ "_noise_" ++ snr ++ ".csv"),
      env.manifest_noise with
  | some df, some mf => [mergeManifest (toTagged ("noise_" ++ snr) (dropAverage df)) mf]
  | _, _ => []

/-- The per-shift pitch part of load_results_with_metadata
(lines 119-129). -/
def pitchPart (env : AddEnv) (model cents : String) : List (List TaggedRow) :=
  match env.readCsv (results_dir ++ "/" ++ model ++ "_pitch_shift_" ++ cents ++ ".csv"),
      env.manifest_tuning with
  | some df, some mf => [mergeManifest (toTagged ("pitch_shift_" ++ cents) (dropAverage df)) mf]
  | _, _ => []

/-- The model_results accumulator of load_results_with_metadata
(plot_additional_comparisons.py lines 80-129): every existing file
contributes one part, in program order. -/
def model_results (env : AddEnv) (model : String) : List (List TaggedRow) :=
  cleanPart env model ++ distPart env model ++
  noisePart env model "5db" ++ noisePart env model "15db" ++
  pitchPart env model "25cents" ++ pitchPart env model "50cents"

/-- load_results_with_metadata for one model
(plot_additional_comparisons.py lines 79-134): the parts are concatenated
when any part exists, otherwise the model maps to None. -/
def load_results_with_metadata (env : AddEnv) (model : String) : Option (List TaggedRow) :=
  if (model_results env model).isEmpty then none
  else some (model_results env model).flatten

/-- np.mean over a metric column: the mean is NaN when the array is empty
or contains a NaN entry, otherwise the arithmetic mean. -/
def npMean (vs : List (Option ℚ)) : Option ℚ :=
  if vs.isEmpty ∨ vs.any Option.isNone then none
  else some ((vs.filterMap id).sum / vs.length)

/-- Series.dropna: discard the NaN entries of a column
(plot_additional_comparisons.py lines 173, 192). -/
def dropna (vs : List (Option ℚ)) : List (Option ℚ) :=
  vs.filter Option.isSome

/-- The mean drawn by ResultsPlotter.plot_metric: np.mean applied to
df[metric].values as read, with no dropna (plot_results.py lines 192
and 198). -/
def plot_metric_mean (vs : List (Option ℚ)) : Option ℚ :=
  npMean vs

/-- The mean drawn by the additional-comparison plots: np.mean applied to
the dropna of the column (plot_additional_comparisons.py lines 192
and 196, likewise lines 299 and 303). -/
def additional_mean (vs : List (Option ℚ)) : Option ℚ :=
  npMean (dropna vs)

end Plot

namespace Engine

/-! The pitch-evaluation engine.  Its Python source (module
src.evaluation, class PitchEvaluator) is not part of the repository
tree; every definition here is modelled from the specification,
§4.1-§4.4. -/

/-- Modelled from the spec, §4.1: the fixed reference frequency of the
Frequency/Cents Converter (10 Hz, the standard choice named there). -/
def referenceFreq : ℚ := 10

/-- Modelled from the spec, §4.1: cents = 1200 * log2(freq / reference);
only called on positive frequencies. -/
noncomputable def cents (f : ℚ) : ℝ :=
  1200 * Real.logb 2 ((f : ℝ) / (referenceFreq : ℝ))

/-- Modelled from the spec, §4.2-§4.4: the signed cents difference of a
matched prediction frequency against the ground-truth frequency. -/
noncomputable def centsDiff (pf gf : ℚ) : ℝ :=
  cents pf - cents gf

/-- Modelled from the spec, §4.3 (RCA): fold a cents difference modulo
1200 to its representative in [-600, 600), so that exact octave errors
fold to 0. -/
noncomputable def foldCents (d : ℝ) : ℝ :=
  d - 1200 * ⌊(d + 600) / 1200⌋

/-- Modelled from the spec, §3 (ComparisonFrame): one aligned ground-truth
frame with the matched prediction frequency, or `none` when no prediction
frame fell within the matching tolerance. -/
structure ComparisonFrame where
  gtFreq : ℚ
  predFreq : Option ℚ
deriving DecidableEq

/-- Modelled from the spec, §4.3: ground truth voiced iff its frequency
is positive. -/
def gtVoiced (fr : ComparisonFrame) : Prop :=
  0 < fr.gtFreq

/-- Modelled from the spec, §4.4 (RPA): the frame counts for Raw Pitch
Accuracy when the ground truth is voiced, a prediction was matched and is
voiced, and the absolute cents difference is within the tolerance. -/
def pitchCorrect (tol : ℝ) (fr : ComparisonFrame) : Prop :=
  0 < fr.gtFreq ∧ ∃ pf, fr.predFreq = some pf ∧ 0 < pf ∧ |centsDiff pf fr.gtFreq| ≤ tol

/-- Modelled from the spec, §4.4 (RCA): as pitchCorrect, but the cents
difference is folded to [-600, 600) before the tolerance comparison. -/
def chromaCorrect (tol : ℝ) (fr : ComparisonFrame) : Prop :=
  0 < fr.gtFreq ∧ ∃ pf, fr.predFreq = some pf ∧ 0 < pf ∧ |foldCents (centsDiff pf fr.gtFreq)| ≤ tol

open Classical in
/-- Count the comparison frames satisfying a predicate. -/
noncomputable def countSat (p : ComparisonFrame → Prop) : List ComparisonFrame → ℕ
  | [] => 0
  | fr :: frs => (if p fr then 1 else 0) + countSat p frs

/-- Modelled from the spec, §4.4: Raw Pitch Accuracy, `none` being the
NaN sentinel when the ground truth has no voiced frame. -/
noncomputable def RPA (tol : ℝ) (frs : List ComparisonFrame) : Option ℝ :=
  if countSat gtVoiced frs = 0 then none
  else some ((countSat (pitchCorrect tol) frs : ℝ) / (countSat gtVoiced frs : ℝ))

/-- Modelled from the spec, §4.4: Raw Chroma Accuracy, `none` being the
NaN sentinel when the ground truth has no voiced frame. -/
noncomputable def RCA (tol : ℝ) (frs : List ComparisonFrame) : Option ℝ :=
  if countSat gtVoiced frs = 0 then none
  else some ((countSat (chromaCorrect tol) frs : ℝ) / (countSat gtVoiced frs : ℝ))

/-- Modelled from the spec, §4.2: the prediction frame whose timestamp is
closest to t (ties resolved toward the earlier list entry). -/
def nearestFrame (t : ℚ) : List (ℚ × ℚ) → Option (ℚ × ℚ)
  | [] => none
  | p :: ps =>
    match nearestFrame t ps with
    | none => some p
    | some q => if |p.1 - t| ≤ |q.1 - t| then some p else some q

/-- Modelled from the spec, §4.2: build the comparison frame of one
ground-truth record, matching the nearest prediction frame when its time
distance is within the matching tolerance and recording the prediction as
absent otherwise. -/
def matchFrame (mtol : ℚ) (pr : List (ℚ × ℚ)) (t gf : ℚ) : ComparisonFrame :=
  match nearestFrame t pr with
  | none => ⟨gf, none⟩
  | some q => if |q.1 - t| ≤ mtol then ⟨gf, some q.2⟩ else ⟨gf, none⟩

/-- Modelled from the spec, §4.2 (Time-Series Aligner): one comparison
frame per ground-truth record, the ground truth defining the grid. -/
def alignTracks (mtol : ℚ) (gt pr : List (ℚ × ℚ)) : List ComparisonFrame :=
  gt.map fun g => matchFrame mtol pr g.1 g.2

end Engine

namespace CheckDataset

/-- A file-system state in which no dataset directory exists. -/
def envNoDirs : CheckEnv := ⟨fun _ => false⟩

end CheckDataset

namespace Driver

/-- A driver environment in which every directory exists and holds one
CSV file and every evaluation raises. -/
def envErr : DriverEnv := ⟨fun _ => true, fun _ => 1, fun _ _ _ => Except.error "boom"⟩

/-- A driver environment in which no prediction directory exists. -/
def envMissing : DriverEnv := ⟨fun _ => false, fun _ => 0, fun _ _ _ => Except.ok ()⟩

/-- A driver environment in which every evaluation succeeds. -/
def envOk : DriverEnv := ⟨fun _ => true, fun _ => 1, fun _ _ _ => Except.ok ()⟩

end Driver

namespace Plot

/-- An ordinary result row. -/
def rowA : Row := ⟨"a.csv", some 1, some 1, some 1, some 1⟩

/-- The synthetic aggregate row. -/
def rowAverage : Row := ⟨"AVERAGE", some 1, some 1, some 1, some 1⟩

/-- A plotting environment whose every CSV holds one ordinary row and the
AVERAGE row, with an empty distortion manifest. -/
def plotEnv1 : PlotEnv := ⟨fun _ => some [rowA, rowAverage], some []⟩

/-- The corresponding environment for the additional plotter. -/
def addEnv1 : AddEnv := ⟨fun _ => some [rowA, rowAverage], some [], some [], some []⟩

end Plot

namespace Engine

/-- A one-frame ground-truth track at 440 Hz. -/
def gtTrack : List (ℚ × ℚ) := [(0, 440)]

/-- A one-frame prediction track at 880 Hz, one octave above. -/
def prTrack : List (ℚ × ℚ) := [(0, 880)]

end Engine

section EngineLemmas

open Engine

lemma countSat_congr {p q : ComparisonFrame → Prop} :
    ∀ {l : List ComparisonFrame}, (∀ fr ∈ l, p fr ↔ q fr) → countSat p l = countSat q l := by
  intro l
  induction l with
  | nil => intro _; rfl
  | cons fr frs ih =>
    intro h
    have hfr : p fr ↔ q fr := h fr (List.mem_cons_self fr frs)
    have ht : countSat p frs = countSat q frs :=
      ih fun x hx => h x (List.mem_cons_of_mem fr hx)
    by_cases hp : p fr
    · rw [countSat, countSat, if_pos hp, if_pos (hfr.mp hp), ht]
    · rw [countSat, countSat, if_neg hp, if_neg (fun hq => hp (hfr.mpr hq)), ht]

lemma countSat_pos_of_mem {p : ComparisonFrame → Prop} {l : List ComparisonFrame}
    {fr : ComparisonFrame} (hm : fr ∈ l) (hp : p fr) : 0 < countSat p l := by
  induction l with
  | nil => cases hm
  | cons x xs ih =>
    rcases List.mem_cons.mp hm with h | h
    · subst h
      rw [countSat, if_pos hp]
      omega
    · have := ih h
      rw [countSat]
      split <;> omega

lemma cents_sub_of_pos {pf gf : ℚ} (hp : 0 < pf) (hg : 0 < gf) :
    centsDiff pf gf = 1200 * Real.logb 2 ((pf : ℝ) / (gf : ℝ)) := by
  have hp' : ((pf : ℝ) / (referenceFreq : ℝ)) ≠ 0 := by
    have : (0 : ℝ) < pf := by exact_mod_cast hp
    simp [referenceFreq]
    positivity
  have hg' : ((gf : ℝ) / (referenceFreq : ℝ)) ≠ 0 := by
    have : (0 : ℝ) < gf := by exact_mod_cast hg
    simp [referenceFreq]
    positivity
  have hgf : (gf : ℝ) ≠ 0 := by
    have : (0 : ℝ) < gf := by exact_mod_cast hg
    linarith
  have href : (referenceFreq : ℝ) ≠ 0 := by norm_num [referenceFreq]
  unfold centsDiff cents
  rw [← mul_sub, ← Real.logb_div hp' hg']
  congr 2
  field_simp

lemma centsDiff_double {gf : ℚ} (hg : 0 < gf) : centsDiff (2 * gf) gf = 1200 := by
  have h2 : 0 < 2 * gf := by positivity
  rw [cents_sub_of_pos h2 hg]
  have hgf : (gf : ℝ) ≠ 0 := by
    have : (0 : ℝ) < gf := by exact_mod_cast hg
    linarith
  have : ((2 * gf : ℚ) : ℝ) / (gf : ℝ) = 2 := by
    push_cast
    field_simp
  rw [this, Real.logb_self_eq_one (by norm_num)]
  norm_num

lemma centsDiff_half {gf pf : ℚ} (hg : 0 < gf) (hp : 0 < pf) (h : 2 * pf = gf) :
    centsDiff pf gf = -1200 := by
  rw [cents_sub_of_pos hp hg]
  have hpf : (pf : ℝ) ≠ 0 := by
    have : (0 : ℝ) < pf := by exact_mod_cast hp
    linarith
  have : ((pf : ℚ) : ℝ) / (gf : ℝ) = 2⁻¹ := by
    rw [← h]
    push_cast
    field_simp
    ring
  rw [this, Real.logb_inv, Real.logb_self_eq_one (by norm_num)]
  norm_num

lemma foldCents_1200 : foldCents 1200 = 0 := by
  unfold foldCents
  have : ⌊((1200 : ℝ) + 600) / 1200⌋ = 1 := by
    rw [Int.floor_eq_iff]
    push_cast
    norm_num
  rw [this]
  norm_num

lemma foldCents_neg_1200 : foldCents (-1200) = 0 := by
  unfold foldCents
  have : ⌊((-1200 : ℝ) + 600) / 1200⌋ = -1 := by
    rw [Int.floor_eq_iff]
    push_cast
    norm_num
  rw [this]
  norm_num

end EngineLemmas

section ViewResultsTheorems

open ViewResults

/-- print_tree on the infinitely deep tree with the default max_depth 4
produces exactly four lines, one per permitted level. -/
lemma deepFs_print_tree :
    print_tree deepFs "results" "" 4 0 =
      ["└── d", "    └── d", "        └── d", "            └── d"] := by
  rfl

/-- Claim C9: print_tree recurses to at most max_depth directory levels
below its starting directory: any call with current_depth greater than or
equal to max_depth returns immediately (no lines, no recursion), so the
traversal terminates even on arbitrarily deep trees; the defaulted call
of main uses max_depth = 4 (view_results.py lines 39-41, 53, 98). -/
theorem c9_print_tree_depth_guard (fs : Fs) (directory pre : String)
    (max_depth current_depth : ℕ) (h : current_depth ≥ max_depth) :
    print_tree fs directory pre max_depth current_depth = [] := by
  rw [print_tree, if_pos h]

/-- Witness for C9: at the default max_depth 4 the call at depth 4 on the
infinitely deep tree returns no lines. -/
theorem c9_print_tree_depth_guard_witness :
    4 ≥ 4 ∧ print_tree deepFs "results" "" 4 4 = [] :=
  ⟨le_refl 4, c9_print_tree_depth_guard deepFs "results" "" 4 4 (le_refl 4)⟩

lemma format_size_go_spec (us : List String) (s : ℚ) :
    (∃ i : Fin us.length,
        s / 1024 ^ (i : ℕ) < 1024 ∧ (∀ j < (i : ℕ), 1024 ≤ s / 1024 ^ j) ∧
        format_size_go us s = (s / 1024 ^ (i : ℕ), us.get i)) ∨
    ((∀ j < us.length, 1024 ≤ s / 1024 ^ j) ∧
        format_size_go us s = (s / 1024 ^ us.length, "PB")) := by
  induction us generalizing s with
  | nil =>
    right
    refine ⟨fun j hj => absurd hj (by simp), ?_⟩
    simp [format_size_go]
  | cons u us ih =>
    by_cases h : s < 1024
    · left
      refine ⟨⟨0, by simp⟩, by simpa using h, fun j hj => absurd hj (by simp), ?_⟩
      simp [format_size_go, if_pos h]
    · have hstep : ∀ k : ℕ, s / 1024 / 1024 ^ k = s / 1024 ^ (k + 1) := by
        intro k
        rw [div_div, pow_succ]
        ring_nf
      rcases ih (s / 1024) with ⟨i, hlt, hge, heq⟩ | ⟨hge, heq⟩
      · left
        refine ⟨⟨(i : ℕ) + 1, by simpa using i.isLt⟩, ?_, ?_, ?_⟩
        · simpa [hstep] using hlt
        · intro j hj
          cases j with
          | zero => simpa using le_of_not_lt h
          | succ k =>
            have hk : k < (i : ℕ) := by simpa using hj
            have := hge k hk
            simpa [hstep] using this
        · rw [format_size_go, if_neg h, heq]
          simp [hstep]
      · right
        refine ⟨?_, ?_⟩
        · intro j hj
          cases j with
          | zero => simpa using le_of_not_lt h
          | succ k =>
            have hk : k < us.length := by simpa using hj
            have := hge k hk
            simpa [hstep] using this
        · rw [format_size_go, if_neg h, heq]
          simp [hstep]

/-- Claim C10: for every non-negative byte count, format_size returns the
value formatted to two decimal places followed by one unit among B, KB,
MB, GB, TB, PB; the B..TB unit chosen is the first whose successively
1024-divided value is below 1024, and any count of 1024 TB (= 1024^5
bytes) or more is reported in PB (view_results.py lines 13-19). -/
theorem c10_format_size (n : ℕ) :
    ((n : ℚ) < 1024 ^ 5 →
      ∃ i : Fin sizeUnits.length,
        format_size (n : ℚ) = formatTwo ((n : ℚ) / 1024 ^ (i : ℕ)) ++ " " ++ sizeUnits.get i ∧
        (n : ℚ) / 1024 ^ (i : ℕ) < 1024 ∧
        ∀ j < (i : ℕ), 1024 ≤ (n : ℚ) / 1024 ^ j) ∧
    (1024 ^ 5 ≤ (n : ℚ) →
      format_size (n : ℚ) = formatTwo ((n : ℚ) / 1024 ^ 5) ++ " " ++ "PB") := by
  have hn : (0 : ℚ) ≤ (n : ℚ) := by positivity
  rcases format_size_go_spec sizeUnits (n : ℚ) with ⟨i, hlt, hge, heq⟩ | ⟨hge, heq⟩
  · constructor
    · intro _
      exact ⟨i, by rw [format_size, heq], hlt, hge⟩
    · intro h5
      exfalso
      have hi5 : (i : ℕ) < 5 := by simpa [sizeUnits] using i.isLt
      have hlt' : (n : ℚ) < 1024 ^ ((i : ℕ) + 1) := by
        have hp : (0 : ℚ) < 1024 ^ (i : ℕ) := by positivity
        rw [div_lt_iff hp] at hlt
        calc (n : ℚ) < 1024 * 1024 ^ (i : ℕ) := hlt
          _ = 1024 ^ ((i : ℕ) + 1) := by rw [pow_succ]; ring
      have hmono : (1024 : ℚ) ^ ((i : ℕ) + 1) ≤ 1024 ^ 5 := by
        apply pow_le_pow_right (by norm_num)
        omega
      linarith
  · constructor
    · intro h5
      exfalso
      have h4 := hge 4 (by simp [sizeUnits])
      have hp : (0 : ℚ) < 1024 ^ 4 := by positivity
      rw [le_div_iff hp] at h4
      have : (1024 : ℚ) * 1024 ^ 4 = 1024 ^ 5 := by ring
      linarith
    · intro _
      rw [format_size, heq]
      simp [sizeUnits]

/-- Witness for C10: 2048 bytes are reported as 2.00 KB, and 3 * 1024^5
bytes as 3.00 PB. -/
theorem c10_format_size_witness :
    format_size ((2048 : ℕ) : ℚ) = "2.00 KB" ∧
    format_size ((3 * 1024 ^ 5 : ℕ) : ℚ) = "3.00 PB" := by
  have h1 := (c10_format_size 2048).1 (by norm_num)
  have h2 := (c10_format_size (3 * 1024 ^ 5)).2 (by push_cast; norm_num)
  constructor
  · have hgo : format_size_go sizeUnits ((2048 : ℕ) : ℚ) = (2, "KB") := by
      simp only [sizeUnits, format_size_go]
      norm_num
    have h200 : round ((2 : ℚ) * 100) = 200 := by
      rw [show ((2 : ℚ) * 100) = ((200 : ℤ) : ℚ) by norm_num]
      exact round_intCast 200
    rw [format_size, hgo]
    simp only [formatTwo, h200]
    rfl
  · have hgo : format_size_go sizeUnits ((3 * 1024 ^ 5 : ℕ) : ℚ) = (3, "PB") := by
      simp only [sizeUnits, format_size_go]
      norm_num
    have h300 : round ((3 : ℚ) * 100) = 300 := by
      rw [show ((3 : ℚ) * 100) = ((300 : ℤ) : ℚ) by norm_num]
      exact round_intCast 300
    rw [format_size, hgo]
    simp only [formatTwo, h300]
    rfl

end ViewResultsTheorems

section CheckDatasetTheorems

open CheckDataset

lemma foldl_and_eq_all (p : String → Bool) (l : List String) (b : Bool) :
    l.foldl (fun acc d => acc && p d) b = (b && l.all p) := by
  induction l generalizing b with
  | nil => simp
  | cons x xs ih => simp [List.foldl_cons, ih, Bool.and_assoc]

lemma all_ok_eq_all (env : CheckEnv) : all_ok env = requiredDirs.all env.existsDir := by
  simp [all_ok, foldl_and_eq_all]

/-- Claim C7: the dataset-completeness checker reports the status of every
required directory, in order, never stopping at the first missing one, and
its exit status is nonzero exactly when at least one required directory is
missing (check_dataset.py lines 19-89). -/
theorem c7_check_dataset (env : CheckEnv) :
    (statusReport env).map Prod.fst = requiredDirs ∧
    (statusReport env).length = requiredDirs.length ∧
    (exitCode env ≠ 0 ↔ ∃ d ∈ requiredDirs, env.existsDir d = false) := by
  refine ⟨by simp [statusReport, Function.comp_def], by simp [statusReport], ?_⟩
  rcases h : requiredDirs.all env.existsDir with _ | _
  · rw [exitCode, all_ok_eq_all, h]
    simp only [Bool.false_eq_true, if_false]
    constructor
    · intro _
      rcases List.all_eq_false.mp h with ⟨d, hd, hf⟩
      exact ⟨d, hd, by simpa using hf⟩
    · intro _
      omega
  · rw [exitCode, all_ok_eq_all, h]
    simp only [if_true]
    constructor
    · intro hc
      omega
    · rintro ⟨d, hd, hf⟩
      have := List.all_eq_true.mp h d hd
      rw [hf] at this
      cases this

/-- Witness for C7: with every dataset directory missing, the checker's
exit status is nonzero. -/
theorem c7_check_dataset_witness : exitCode envNoDirs ≠ 0 :=
  (c7_check_dataset envNoDirs).2.2.mpr ⟨"MedleyDB-Pitch/audio", by simp [requiredDirs], rfl⟩

end CheckDatasetTheorems

section DriverTheorems

open Driver

lemma runCondition_condName (env : DriverEnv) (ev : PitchEvaluator) (cfg : ExpConfig) :
    (runCondition env ev cfg).condName = cfg.name := by
  unfold runCondition
  split
  · rfl
  · split
    · rfl
    · split <;> rfl

lemma mainEvents_condNames (env : DriverEnv) :
    (mainEvents env).map Event.condName = experiments.map ExpConfig.name := by
  simp [mainEvents, List.map_map, Function.comp_def, runCondition_condName]

/-- Claim C1: an exception raised while evaluating one condition never
aborts the batch run: the try/except of evaluate_basic_pitch.py lines
88-97 catches it, the error is reported for that condition, and the run
still yields one event per configured condition, in the configured
order. -/
theorem c1_driver_isolates_errors (env : DriverEnv) (i : ℕ) (cfg : ExpConfig) (e : String)
    (hcfg : experiments[i]? = some cfg)
    (hdir : env.dirExists cfg.prediction_dir = true)
    (hcsv : env.csvFileCount cfg.prediction_dir ≠ 0)
    (herr : env.evalOutcome cfg.prediction_dir cfg.ground_truth_dir cfg.output_path =
      Except.error e) :
    (mainEvents env)[i]? = some (Event.errorReported cfg.name e) ∧
    (mainEvents env).map Event.condName = experiments.map ExpConfig.name := by
  constructor
  · rw [mainEvents, List.getElem?_map, hcfg]
    simp [runCondition, hdir, hcsv, herr]
  · exact mainEvents_condNames env

/-- Witness for C1: in an environment where every evaluation raises, the
first condition is reported as an error and all six conditions are still
processed in order. -/
theorem c1_driver_isolates_errors_witness :
    (mainEvents envErr)[0]? = some (Event.errorReported "clean" "boom") ∧
    (mainEvents envErr).map Event.condName = experiments.map ExpConfig.name := by
  have h := c1_driver_isolates_errors envErr 0
    ⟨"clean", "results/predictions/basic_pitch_normalized/clean",
      "MedleyDB-Pitch/pitch", "results/metrics/basic_pitch_clean.csv"⟩
    "boom" rfl rfl (by decide) rfl
  exact h

/-- Claim C2: a condition whose prediction directory does not exist or
contains no CSV file is reported as skipped, the evaluation engine is not
invoked for it, and every configured condition still yields its event
(evaluate_basic_pitch.py lines 68-81). -/
theorem c2_driver_skips_missing (env : DriverEnv) (i : ℕ) (cfg : ExpConfig)
    (hcfg : experiments[i]? = some cfg)
    (hskip : env.dirExists cfg.prediction_dir = false ∨
      env.csvFileCount cfg.prediction_dir = 0) :
    ∃ ev : Event, (mainEvents env)[i]? = some ev ∧
      (ev = Event.skippedMissingDir cfg.name ∨ ev = Event.skippedNoFiles cfg.name) ∧
      ev.invokedEngine = false ∧
      (mainEvents env).map Event.condName = experiments.map ExpConfig.name := by
  by_cases hd : env.dirExists cfg.prediction_dir = false
  · refine ⟨Event.skippedMissingDir cfg.name, ?_, Or.inl rfl, rfl, mainEvents_condNames env⟩
    rw [mainEvents, List.getElem?_map, hcfg]
    simp [runCondition, hd]
  · have hc : env.csvFileCount cfg.prediction_dir = 0 := by
      rcases hskip with h | h
      · exact absurd h hd
      · exact h
    refine ⟨Event.skippedNoFiles cfg.name, ?_, Or.inr rfl, rfl, mainEvents_condNames env⟩
    rw [mainEvents, List.getElem?_map, hcfg]
    simp [runCondition, hd, hc]

/-- Witness for C2: with no prediction directory present, the first
condition is reported as skipped and no engine invocation occurs. -/
theorem c2_driver_skips_missing_witness :
    (mainEvents envMissing)[0]? = some (Event.skippedMissingDir "clean") ∧
    Event.invokedEngine (Event.skippedMissingDir "clean") = false := by
  have h := c2_driver_skips_missing envMissing 0
    ⟨"clean", "results/predictions/basic_pitch_normalized/clean",
      "MedleyDB-Pitch/pitch", "results/metrics/basic_pitch_clean.csv"⟩
    rfl (Or.inl rfl)
  exact ⟨rfl, rfl⟩

/-- Claim C6: the batch driver constructs a single evaluator with pitch
tolerance 50.0 cents, the experiments table has exactly six conditions,
and every evaluation event of any run carries that same evaluator's
50-cent tolerance (evaluate_basic_pitch.py lines 25, 28-59, 89). -/
theorem c6_single_evaluator_tolerance :
    evaluator.pitch_tolerance = 50 ∧
    experiments.length = 6 ∧
    ∀ (env : DriverEnv) (n : String) (t : ℚ),
      Event.evaluated n t ∈ mainEvents env → t = evaluator.pitch_tolerance := by
  refine ⟨rfl, rfl, ?_⟩
  intro env n t hmem
  rw [mainEvents] at hmem
  rcases List.mem_map.mp hmem with ⟨cfg, _, heq⟩
  unfold runCondition at heq
  split at heq
  · cases heq
  · split at heq
    · cases heq
    · split at heq
      · injection heq with h1 h2
        exact h2.symm
      · cases heq

/-- Witness for C6: in a fully populated environment the clean condition
is evaluated, and its recorded tolerance is the evaluator's 50 cents. -/
theorem c6_single_evaluator_tolerance_witness :
    Event.evaluated "clean" 50 ∈ mainEvents envOk ∧
    (50 : ℚ) = evaluator.pitch_tolerance := by
  have hm : Event.evaluated "clean" 50 ∈ mainEvents envOk := by
    rw [show mainEvents envOk = experiments.map (runCondition envOk evaluator) from rfl]
    exact List.mem_map.mpr ⟨⟨"clean", "results/predictions/basic_pitch_normalized/clean",
      "MedleyDB-Pitch/pitch", "results/metrics/basic_pitch_clean.csv"⟩,
      List.mem_cons_self _ _, rfl⟩
  exact ⟨hm, c6_single_evaluator_tolerance.2.2 envOk "clean" 50 hm⟩

end DriverTheorems

section PlotTheorems

open Plot

lemma mem_dropAverage {df : List Row} {r : Row} (h : r ∈ dropAverage df) :
    r.filename ≠ "AVERAGE" := by
  have hb := (List.mem_filter.mp h).2
  simpa using hb

lemma mem_mergeLevelTag {df : List Row} {mf : List DistRow} {rm : Row × Option String}
    (h : rm ∈ mergeLevelTag df mf) : rm.1 ∈ df := by
  rcases List.mem_flatMap.mp h with ⟨r, hr, hm⟩
  rcases hfl : mf.filter (fun m => m.track_id == trackId r.filename) with _ | ⟨m, ms⟩
  · rw [hfl] at hm
    simp at hm
    rw [hm]
    exact hr
  · rw [hfl] at hm
    rcases List.mem_map.mp hm with ⟨m', _, hm'⟩
    rw [← hm']
    exact hr

lemma mem_mergeManifest {rows : List TaggedRow} {mf : List ManifestRow} {tr : TaggedRow}
    (h : tr ∈ mergeManifest rows mf) : ∃ tr0 ∈ rows, tr.row = tr0.row := by
  rcases List.mem_flatMap.mp h with ⟨r, hr, hm⟩
  rcases hfl : mf.filter (fun m => m.track_id == trackId r.row.filename) with _ | ⟨m, ms⟩
  · rw [hfl] at hm
    simp at hm
    exact ⟨r, hr, by rw [hm]⟩
  · rw [hfl] at hm
    rcases List.mem_map.mp hm with ⟨m', _, hm'⟩
    exact ⟨r, hr, by rw [← hm']⟩

lemma mem_toTagged {c : String} {df : List Row} {tr : TaggedRow}
    (h : tr ∈ toTagged c df) : tr.row ∈ df := by
  rcases List.mem_map.mp h with ⟨r, hr, heq⟩
  rw [← heq]
  exact hr

lemma merged_part_no_average {c : String} {df : List Row} {mf : List ManifestRow}
    {tr : TaggedRow} (h : tr ∈ mergeManifest (toTagged c (dropAverage df)) mf) :
    tr.row.filename ≠ "AVERAGE" := by
  rcases mem_mergeManifest h with ⟨tr0, htr0, heq⟩
  rw [heq]
  exact mem_dropAverage (mem_toTagged htr0)

lemma cleanPart_no_average {env : AddEnv} {model : String} {part : List TaggedRow}
    {tr : TaggedRow} (hp : part ∈ cleanPart env model) (ht : tr ∈ part) :
    tr.row.filename ≠ "AVERAGE" := by
  unfold cleanPart at hp
  rcases hcsv : env.readCsv (results_dir ++ "/" ++ model ++ "_clean.csv") with _ | df
  · rw [hcsv] at hp
    cases hp
  · rw [hcsv] at hp
    rcases List.mem_singleton.mp hp with rfl
    exact mem_dropAverage (mem_toTagged ht)

lemma distPart_no_average {env : AddEnv} {model : String} {part : List TaggedRow}
    {tr : TaggedRow} (hp : part ∈ distPart env model) (ht : tr ∈ part) :
    tr.row.filename ≠ "AVERAGE" := by
  unfold distPart at hp
  rcases hcsv : env.readCsv (results_dir ++ "/" ++ model ++ "_distortion.csv") with _ | df
  · rw [hcsv] at hp
    cases hp
  · rcases hmf : env.manifest_dist with _ | mf
    · rw [hcsv, hmf] at hp
      cases hp
    · rw [hcsv, hmf] at hp
      rcases List.mem_singleton.mp hp with rfl
      exact merged_part_no_average ht

lemma noisePart_no_average {env : AddEnv} {model snr : String} {part : List TaggedRow}
    {tr : TaggedRow} (hp : part ∈ noisePart env model snr) (ht : tr ∈ part) :
    tr.row.filename ≠ "AVERAGE" := by
  unfold noisePart at hp
  rcases hcsv : env.readCsv (results_dir ++ "/" ++ model ++ "_noise_" ++ snr ++ ".csv")
    with _ | df
  · rw [hcsv] at hp
    cases hp
  · rcases hmf : env.manifest_noise with _ | mf
    · rw [hcsv, hmf] at hp
      cases hp
    · rw [hcsv, hmf] at hp
      rcases List.mem_singleton.mp hp with rfl
      exact merged_part_no_average ht

lemma pitchPart_no_average {env : AddEnv} {model cents : String} {part : List TaggedRow}
    {tr : TaggedRow} (hp : part ∈ pitchPart env model cents) (ht : tr ∈ part) :
    tr.row.filename ≠ "AVERAGE" := by
  unfold pitchPart at hp
  rcases hcsv : env.readCsv (results_dir ++ "/" ++ model ++ "_pitch_shift_" ++ cents ++ ".csv")
    with _ | df
  · rw [hcsv] at hp
    cases hp
  · rcases hmf : env.manifest_tuning with _ | mf
    · rw [hcsv, hmf] at hp
      cases hp
    · rw [hcsv, hmf] at hp
      rcases List.mem_singleton.mp hp with rfl
      exact merged_part_no_average ht

lemma load_distortion_no_average {env : PlotEnv} {model level : String} {df : List Row}
    (h : load_distortion env model level = some df) :
    ∀ r ∈ df, r.filename ≠ "AVERAGE" := by
  intro r hr
  revert h
  unfold load_distortion
  rcases env.readCsv (results_dir ++ "/" ++ model ++ "_distortion.csv") with _ | df0
  · intro h
    cases h
  · rcases env.dist_manifest with _ | mf
    · intro h
      cases h
    · intro h
      dsimp only at h
      by_cases hlen : 0 < (distLevelRows df0 mf level).length
      · rw [if_pos hlen] at h
        injection h with hdf
        rw [← hdf] at hr
        rcases List.mem_map.mp hr with ⟨rm, hrm, hfst⟩
        rw [← hfst]
        exact mem_dropAverage (mem_mergeLevelTag (List.mem_of_mem_filter hrm))
      · rw [if_neg hlen] at h
        cases h

lemma load_plain_no_average {env : PlotEnv} {model condition : String} {df : List Row}
    (h : load_plain env model condition = some df) :
    ∀ r ∈ df, r.filename ≠ "AVERAGE" := by
  intro r hr
  revert h
  unfold load_plain
  rcases env.readCsv (results_dir ++ "/" ++ model ++ "_" ++ condition ++ ".csv") with _ | df0
  · intro h
    cases h
  · intro h
    injection h with hdf
    rw [← hdf] at hr
    exact mem_dropAverage hr

/-- Claim C8: every per-condition results table returned by the plotters'
loading routines is free of the synthetic AVERAGE row: both
ResultsPlotter.load_results (here per (model, condition) cell,
plot_results.py lines 80-135) and
AdditionalPlotter.load_results_with_metadata
(plot_additional_comparisons.py lines 70-136) filter it out on every load
path before any statistic is computed. -/
theorem c8_no_average_rows :
    (∀ (env : PlotEnv) (model condition : String) (df : List Row),
      load_condition env model condition = some df →
        ∀ r ∈ df, r.filename ≠ "AVERAGE") ∧
    (∀ (env : AddEnv) (model : String) (df : List TaggedRow),
      load_results_with_metadata env model = some df →
        ∀ tr ∈ df, tr.row.filename ≠ "AVERAGE") := by
  constructor
  · intro env model condition df hload
    unfold load_condition at hload
    split at hload
    · exact load_distortion_no_average hload
    · exact load_plain_no_average hload
  · intro env model df hload tr htr
    unfold load_results_with_metadata at hload
    split at hload
    · cases hload
    · injection hload with hdf
      rw [← hdf] at htr
      rcases List.mem_flatten.mp htr with ⟨part, hpart, ht⟩
      unfold model_results at hpart
      rcases List.mem_append.mp hpart with h5 | h6
      · rcases List.mem_append.mp h5 with h4 | h5'
        · rcases List.mem_append.mp h4 with h3 | h4'
          · rcases List.mem_append.mp h3 with h2 | h3'
            · rcases List.mem_append.mp h2 with h1 | h2'
              · exact cleanPart_no_average h1 ht
              · exact distPart_no_average h2' ht
            · exact noisePart_no_average h3' ht
          · exact noisePart_no_average h4' ht
        · exact pitchPart_no_average h5' ht
      · exact pitchPart_no_average h6 ht

/-- Witness for C8: a CSV holding one ordinary row and the AVERAGE row
loads as just the ordinary row, whose filename is not AVERAGE. -/
theorem c8_no_average_rows_witness :
    load_condition plotEnv1 "librosa" "clean" = some [rowA] ∧
    load_results_with_metadata addEnv1 "librosa" =
      some [⟨rowA, "clean", []⟩, ⟨rowA, "distortion", []⟩, ⟨rowA, "noise_5db", []⟩,
        ⟨rowA, "noise_15db", []⟩, ⟨rowA, "pitch_shift_25cents", []⟩,
        ⟨rowA, "pitch_shift_50cents", []⟩] ∧
    rowA.filename ≠ "AVERAGE" := by
  have h1 : load_condition plotEnv1 "librosa" "clean" = some [rowA] := by rfl
  have h2 : load_results_with_metadata addEnv1 "librosa" =
      some [⟨rowA, "clean", []⟩, ⟨rowA, "distortion", []⟩, ⟨rowA, "noise_5db", []⟩,
        ⟨rowA, "noise_15db", []⟩, ⟨rowA, "pitch_shift_25cents", []⟩,
        ⟨rowA, "pitch_shift_50cents", []⟩] := by rfl
  exact ⟨h1, h2, c8_no_average_rows.1 plotEnv1 "librosa" "clean" [rowA] h1 rowA (by simp)⟩

lemma dropna_eq_filterMap (vs : List (Option ℚ)) :
    dropna vs = (vs.filterMap id).map some := by
  induction vs with
  | nil => rfl
  | cons v vt ih =>
    cases v with
    | none => simpa [dropna, List.filter_cons] using ih
    | some a => simpa [dropna, List.filter_cons] using ih

/-- Claim C3 counterexample: on the one-NaN column [1, NaN] the mean
plotted by ResultsPlotter.plot_metric is NaN — the NaN entry contaminates
the np.mean of the raw values (plot_results.py line 198) — while the mean
over the non-NaN entries is 1, so not every plotted mean excludes the NaN
entries. -/
theorem c3_nan_mean_counterexample :
    plot_metric_mean [some 1, none] = none ∧
    npMean (dropna [some 1, none]) = some 1 ∧
    (none : Option ℚ) ≠ some 1 := by
  refine ⟨?_, ?_, by simp⟩
  · simp [plot_metric_mean, npMean]
  · norm_num [dropna, npMean, List.filter, List.filterMap_cons, id_eq]

/-- Claim C3 (amended): only the additional-comparison plots exclude NaN
entries from their means — plot_additional_comparisons applies dropna
before np.mean, so its mean equals the mean of the non-NaN entries
(lines 192, 196) — whereas ResultsPlotter.plot_metric applies np.mean to
the raw column, so any NaN entry makes the plotted mean NaN; in neither
routine is NaN coerced to 0. -/
theorem c3_nan_mean_amended :
    (∀ vs : List (Option ℚ), additional_mean vs =
      (if (vs.filterMap id).length = 0 then none
       else some ((vs.filterMap id).sum / (vs.filterMap id).length))) ∧
    (∀ vs : List (Option ℚ), (none : Option ℚ) ∈ vs → plot_metric_mean vs = none) := by
  constructor
  · intro vs
    rw [additional_mean, npMean, dropna_eq_filterMap]
    rcases hfm : vs.filterMap id with _ | ⟨a, l⟩
    · simp
    · simp
  · intro vs hmem
    rw [plot_metric_mean, npMean, if_pos]
    right
    exact List.any_eq_true.mpr ⟨none, hmem, rfl⟩

/-- Witness for the amended C3: on the column [2, NaN, 4] the
additional-comparison mean is 3 (the NaN excluded), while the
plot_metric mean is NaN. -/
theorem c3_nan_mean_amended_witness :
    additional_mean [some 2, none, some 4] = some 3 ∧
    plot_metric_mean [some 2, none, some 4] = none := by
  constructor
  · rw [c3_nan_mean_amended.1 [some 2, none, some 4]]
    norm_num [List.filterMap_cons, id_eq]
  · exact c3_nan_mean_amended.2 [some 2, none, some 4] (by simp)

end PlotTheorems

section EngineTheorems

open Engine

/-- Claim C4: for every pair of PitchTracks in which, at every
ground-truth-voiced frame, the matched prediction frequency is exactly
double (or exactly half) the ground-truth frequency, the Metric Computer
returns RCA = 1, independently of RPA (no hypothesis constrains RPA);
spec-modelled, §4.3/§8, since the engine source is not in the
repository.  The ground truth is assumed to have at least one voiced
frame, as otherwise §4.4 prescribes the NaN sentinel. -/
theorem c4_octave_invariance (mtol : ℚ) (tol : ℝ) (gt pr : List (ℚ × ℚ))
    (htol : 0 ≤ tol)
    (hoct : ∀ fr ∈ alignTracks mtol gt pr, 0 < fr.gtFreq →
      ∃ pf, fr.predFreq = some pf ∧ (pf = 2 * fr.gtFreq ∨ 2 * pf = fr.gtFreq))
    (hv : ∃ fr ∈ alignTracks mtol gt pr, 0 < fr.gtFreq) :
    RCA tol (alignTracks mtol gt pr) = some 1 := by
  have hiff : ∀ fr ∈ alignTracks mtol gt pr, gtVoiced fr ↔ chromaCorrect tol fr := by
    intro fr hm
    constructor
    · intro hvd
      have hg : 0 < fr.gtFreq := hvd
      rcases hoct fr hm hg with ⟨pf, hpf, hcase⟩
      have hp : 0 < pf := by
        rcases hcase with h | h
        · rw [h]
          positivity
        · linarith [hg]
      refine ⟨hg, pf, hpf, hp, ?_⟩
      rcases hcase with h | h
      · rw [h, centsDiff_double hg, foldCents_1200]
        simpa using htol
      · rw [centsDiff_half hg hp h, foldCents_neg_1200]
        simpa using htol
    · intro h
      exact h.1
  have hcount : countSat (chromaCorrect tol) (alignTracks mtol gt pr) =
      countSat gtVoiced (alignTracks mtol gt pr) := (countSat_congr hiff).symm
  rcases hv with ⟨fr, hm, hvd⟩
  have hpos : 0 < countSat gtVoiced (alignTracks mtol gt pr) :=
    countSat_pos_of_mem hm hvd
  have hne : ((countSat gtVoiced (alignTracks mtol gt pr) : ℕ) : ℝ) ≠ 0 :=
    Nat.cast_ne_zero.mpr (by omega)
  rw [RCA, if_neg (by omega), hcount, div_self hne]

/-- Witness for C4: the one-frame 440 Hz ground truth aligned against the
one-frame 880 Hz prediction (one octave up) scores RCA = 1 at the 50-cent
tolerance. -/
theorem c4_octave_invariance_witness :
    RCA 50 (alignTracks (1 / 100) gtTrack prTrack) = some 1 := by
  have halign : alignTracks (1 / 100) gtTrack prTrack = [⟨440, some 880⟩] := by
    norm_num [alignTracks, gtTrack, prTrack, matchFrame, nearestFrame]
  apply c4_octave_invariance
  · norm_num
  · intro fr hm _
    rw [halign] at hm
    rcases List.mem_singleton.mp hm with rfl
    exact ⟨880, rfl, Or.inl (by norm_num)⟩
  · refine ⟨⟨440, some 880⟩, ?_, by norm_num⟩
    rw [halign]
    exact List.mem_singleton.mpr rfl

/-- Claim C5: a matched, voiced frame whose absolute cents difference
equals exactly the configured pitch tolerance counts as correct for RPA
— and, with the folded difference, for RCA — while a difference strictly
greater than the tolerance counts as incorrect; spec-modelled, §4.4/§8,
since the engine source is not in the repository. -/
theorem c5_tolerance_boundary (tol : ℝ) (g pf : ℚ) (hg : 0 < g) (hp : 0 < pf) :
    (|centsDiff pf g| = tol → RPA tol [⟨g, some pf⟩] = some 1) ∧
    (tol < |centsDiff pf g| → RPA tol [⟨g, some pf⟩] = some 0) ∧
    (|foldCents (centsDiff pf g)| = tol → RCA tol [⟨g, some pf⟩] = some 1) ∧
    (tol < |foldCents (centsDiff pf g)| → RCA tol [⟨g, some pf⟩] = some 0) := by
  have hvc : countSat gtVoiced [⟨g, some pf⟩] = 1 := by
    simp only [countSat]
    rw [if_pos (show gtVoiced ⟨g, some pf⟩ from hg)]
  refine ⟨?_, ?_, ?_, ?_⟩
  · intro h
    have hpc : pitchCorrect tol ⟨g, some pf⟩ := ⟨hg, pf, rfl, hp, le_of_eq h⟩
    have hc1 : countSat (pitchCorrect tol) [⟨g, some pf⟩] = 1 := by
      simp only [countSat]
      rw [if_pos hpc]
    rw [RPA, if_neg (by omega), hvc, hc1]
    norm_num
  · intro h
    have hnpc : ¬ pitchCorrect tol ⟨g, some pf⟩ := by
      rintro ⟨-, pf', hpf', -, hle⟩
      injection hpf' with he
      rw [← he] at hle
      linarith
    have hc0 : countSat (pitchCorrect tol) [⟨g, some pf⟩] = 0 := by
      simp only [countSat]
      rw [if_neg hnpc]
    rw [RPA, if_neg (by omega), hvc, hc0]
    norm_num
  · intro h
    have hcc : chromaCorrect tol ⟨g, some pf⟩ := ⟨hg, pf, rfl, hp, le_of_eq h⟩
    have hc1 : countSat (chromaCorrect tol) [⟨g, some pf⟩] = 1 := by
      simp only [countSat]
      rw [if_pos hcc]
    rw [RCA, if_neg (by omega), hvc, hc1]
    norm_num
  · intro h
    have hncc : ¬ chromaCorrect tol ⟨g, some pf⟩ := by
      rintro ⟨-, pf', hpf', -, hle⟩
      injection hpf' with he
      rw [← he] at hle
      linarith
    have hc0 : countSat (chromaCorrect tol) [⟨g, some pf⟩] = 0 := by
      simp only [countSat]
      rw [if_neg hncc]
    rw [RCA, if_neg (by omega), hvc, hc0]
    norm_num

/-- Witness for C5: for the frame pairing 440 Hz ground truth with an
880 Hz prediction (cents difference exactly 1200), the frame counts as
correct at tolerance 1200 and incorrect at tolerance 1100; after folding
the difference is exactly 0, correct at tolerance 0 and incorrect at any
tolerance below 0. -/
theorem c5_tolerance_boundary_witness :
    RPA 1200 [⟨440, some 880⟩] = some 1 ∧
    RPA 1100 [⟨440, some 880⟩] = some 0 ∧
    RCA 0 [⟨440, some 880⟩] = some 1 ∧
    RCA (-1) [⟨440, some 880⟩] = some 0 := by
  have hd : centsDiff 880 440 = 1200 := by
    have h := centsDiff_double (by norm_num : (0 : ℚ) < 440)
    norm_num at h
    exact h
  have hf : foldCents (centsDiff 880 440) = 0 := by
    rw [hd]
    exact foldCents_1200
  refine ⟨(c5_tolerance_boundary 1200 440 880 (by norm_num) (by norm_num)).1 ?_,
    (c5_tolerance_boundary 1100 440 880 (by norm_num) (by norm_num)).2.1 ?_,
    (c5_tolerance_boundary 0 440 880 (by norm_num) (by norm_num)).2.2.1 ?_,
    (c5_tolerance_boundary (-1) 440 880 (by norm_num) (by norm_num)).2.2.2 ?_⟩
  · rw [hd, abs_of_nonneg (by norm_num : (0 : ℝ) ≤ 1200)]
  · rw [hd, abs_of_nonneg (by norm_num : (0 : ℝ) ≤ 1200)]
    norm_num
  · rw [hf, abs_zero]
  · rw [hf, abs_zero]
    norm_num

end EngineTheorems
